import Mathlib

/-!
Verification of the transaction-cleaning pipeline in
src/clean_transactions.py.

The embedding is shallow: Python values parsed from JSON lines become the
inductive type Json below, Python ints become exact integers and Python
floats exact rationals, dictionary access becomes association-list lookup,
and any operation that can raise in Python returns an Except value — in
particular the OverflowError that int-to-float conversion raises beyond the
double range, which the source does not catch.  The functions
normalize_amount, the event filter, the extraction and validation steps and
the per-line driver loop are translated directly from the source.
-/

/-- A Python value decoded from a JSON line by the json library.  Python
decodes JSON null to None; absent dictionary keys also read back as None via
dict.get, so Json.null plays both roles, exactly as in the source.  An
integer literal decodes to an arbitrary-precision Python int (constructor
int, an exact integer), any other numeric literal to a Python float
(constructor num, abstracted as an exact rational); the distinction matters
because only the int-to-float conversion inside the normalizer can
overflow.  Object members are kept as an association list with distinct
keys. -/
inductive Json where
  | null : Json
  | bool (b : Bool) : Json
  | int (n : ℤ) : Json
  | num (q : ℚ) : Json
  | str (s : String) : Json
  | arr (l : List Json) : Json
  | obj (m : List (String × Json)) : Json

/-- Errors the Python fragments under study can raise.  OverflowError is
raised by the int-to-float conversion in val / 100.0 and is not in the
except (ValueError, TypeError) clause of the source, so it propagates. -/
inductive PyErr where
  | attributeError : PyErr
  | typeError : PyErr
  | overflowError : PyErr
  deriving DecidableEq

/-- First binding of a key in an association list, as Python dict lookup
(JSON object keys are distinct, so first binding is the binding). -/
def lookupKey : List (String × Json) → String → Option Json
  | [], _ => none
  | (k, v) :: rest, key => if k = key then some v else lookupKey rest key

/-- Python d.get(k, default): AttributeError when the receiver is not a
dictionary. -/
def pyGetD (j : Json) (k : String) (d : Json) : Except PyErr Json :=
  match j with
  | .obj m => .ok ((lookupKey m k).getD d)
  | _ => .error .attributeError

/-- Python d.get(k), whose default is None. -/
def pyGet (j : Json) (k : String) : Except PyErr Json :=
  pyGetD j k Json.null

/-- Python truthiness of a decoded JSON value. -/
def Json.truthy : Json → Bool
  | .null => false
  | .bool b => b
  | .int n => !(n == 0)
  | .num q => !(q == 0)
  | .str s => !(s == "")
  | .arr l => !l.isEmpty
  | .obj m => !m.isEmpty

/-- Python equality test of a decoded value against a string literal. -/
def Json.isStr : Json → String → Bool
  | .str t, s => t == s
  | _, _ => false

/-- Whether pat occurs as a contiguous run inside s (Python substring
membership for strings). -/
def seqContains (pat : List Char) : List Char → Bool
  | [] => pat.isEmpty
  | c :: rest => pat.isPrefixOf (c :: rest) || seqContains pat rest

/-- Python membership test tok in j: exact element equality for lists, key
membership for dictionaries, substring for strings, TypeError otherwise. -/
def pyContains (tok : String) (j : Json) : Except PyErr Bool :=
  match j with
  | .arr l => .ok (l.any (fun e => e.isStr tok))
  | .str s => .ok (seqContains tok.data s.data)
  | .obj m => .ok ((lookupKey m tok).isSome)
  | _ => .error .typeError

/-- Value of a list of decimal digit characters read left to right, as the
integer part of Python float parsing produces it. -/
def digitsVal (cs : List Char) : Nat :=
  cs.foldl (fun a c => a * 10 + (c.toNat - 48)) 0

/-- Python float() applied to a string made only of decimal digits and dots;
these are the only strings the source ever passes to float(), because the
argument was first stripped by the regex.  Such a string parses exactly when
it has at least one digit and at most one dot; otherwise float() raises
ValueError, which the source catches and turns into None, so the model
returns an Option directly. -/
def pyFloatOfClean (cs : List Char) : Option ℚ :=
  if cs.any Char.isDigit ∧ cs.count '.' ≤ 1 then
    let ip := cs.takeWhile (fun c => c != '.')
    let fp := (cs.dropWhile (fun c => c != '.')).drop 1
    some (mkRat (digitsVal ip * 10 ^ fp.length + digitsVal fp) (10 ^ fp.length))
  else
    none

/-- The regex substitution of the source: keep only decimal digits and the
dot, delete every other character. -/
def stripAmount (s : String) : List Char :=
  s.data.filter (fun c => c.isDigit || c == '.')

/-- The smallest integer magnitude at which CPython int-to-float
conversion overflows, written as an explicit numeral so that it evaluates;
it equals 2 ^ 1024 - 2 ^ 970, the first integer that rounds to the
infinite double value, as certified by floatOverflowBound_eq below. -/
def floatOverflowBound : ℕ :=
  179769313486231580793728971405303415079934132710037826936173778980444968292764750946649017977587207096330286416692887910946555547851940402630657488671505820681908902000708383676273854845817711531764475730270069855571366959622842914819860834936475292719074168444365510704342711559699508093042880177904174497792

/-- Whether converting the integer to a Python float raises OverflowError,
as the division val / 100.0 of the source must do first for an int
operand. -/
def intFloatOverflow (n : ℤ) : Bool :=
  decide (floatOverflowBound ≤ n.natAbs)

/-- Translation of normalize_amount from src/clean_transactions.py.  None
and the empty string give None; numeric input (Python bool is a subclass of
int and hence also takes the numeric branch) is divided by 100; string input
is stripped to digits and dots and parsed; anything else falls through to
the final return None.  The except clause catches exactly ValueError and
TypeError: the ValueError that float() can raise is already rendered as
none by pyFloatOfClean, but the OverflowError raised by val / 100.0 when an
integer operand is beyond float-conversion range is not caught and
propagates, hence the Except result type with that single error path. -/
def normalize_amount : Json → Except PyErr (Option ℚ)
  | .null => .ok none
  | .bool b => .ok (some (mkRat (if b then 1 else 0) 100))
  | .int n =>
      if intFloatOverflow n then .error .overflowError
      else .ok (some (mkRat n 100))
  | .num q => .ok (some (q / 100))
  | .str s =>
      .ok (if s = "" then none
        else
          let clean := stripAmount s
          if clean = [] then none else pyFloatOfClean clean)
  | .arr _ => .ok none
  | .obj _ => .ok none

/-- Modelled from the spec for comparison with the implementation: delete
from the string every character that is not a digit or a decimal point; if
no characters remain, or the remainder does not parse as a number, the
result is unrepresentable, otherwise it is the parsed decimal. -/
def specNormalizeString (s : String) : Option ℚ :=
  let kept := s.data.filter (fun c => c.isDigit || c == '.')
  if kept = [] then none else pyFloatOfClean kept

/-- The expression payload.get of flags followed by `or` with the empty
list: a falsy flags value (None from an absent or null member, but also
False, 0, the empty string or an empty container) is replaced by the empty
list. -/
def normFlags (v : Json) : Json :=
  if v.truthy then v else Json.arr []

/-- The filtering condition of step 3 of the source, with Python's
short-circuit evaluation order: membership of "test" in the flags, then
equality of the event type with "heartbeat", then membership of "noise" in
the flags.  A membership test on a non-container flags value raises, which
the source does not catch. -/
def filterExcluded (event_type flags : Json) : Except PyErr Bool :=
  match pyContains "test" flags with
  | .error e => .error e
  | .ok true => .ok true
  | .ok false =>
      if event_type.isStr "heartbeat" then .ok true
      else pyContains "noise" flags

/-- The dictionary appended to cleaned_data for an accepted record.  The
amount is stored as the exact rational the normalizer produced; the other
fields are the extracted values, possibly null. -/
structure Row where
  payment_id : Json
  order_id : Json
  amount_usd : ℚ
  status : Json
  ts : Json

/-- Steps 2 to 5 of the source for one parsed record: navigate the nested
structure, filter, normalize the amount, extract the payment identifier and
validate.  Returns ok none when the record is filtered out or dropped,
ok (some row) when it is accepted, and error when the Python code would
raise (attribute access on a non-dictionary, membership test on a
non-container, overflow in the amount normalization).  The evaluation
order of the source is kept: the amount is normalized before the payment
identifier is extracted, and the order identifier, status and timestamp
are only read once validation passed. -/
def extractAndRow (j : Json) : Except PyErr (Option Row) :=
  match pyGetD j "payload" (Json.obj []) with
  | .error e => .error e
  | .ok payload =>
  match pyGetD j "entity" (Json.obj []) with
  | .error e => .error e
  | .ok entity =>
  match pyGetD j "event" (Json.obj []) with
  | .error e => .error e
  | .ok event_info =>
  match pyGet event_info "type" with
  | .error e => .error e
  | .ok event_type =>
  match pyGet payload "flags" with
  | .error e => .error e
  | .ok flagsRaw =>
  match filterExcluded event_type (normFlags flagsRaw) with
  | .error e => .error e
  | .ok true => .ok none
  | .ok false =>
  match pyGet payload "Amount" with
  | .error e => .error e
  | .ok amount_raw =>
  match normalize_amount amount_raw with
  | .error e => .error e
  | .ok amount_usd =>
  match pyGetD entity "payment" (Json.obj []) with
  | .error e => .error e
  | .ok paymentObj =>
  match pyGet paymentObj "id" with
  | .error e => .error e
  | .ok payment_id =>
  match amount_usd with
  | none => .ok none
  | some q =>
  if payment_id.truthy then
    match pyGetD entity "order" (Json.obj []) with
    | .error e => .error e
    | .ok orderObj =>
    match pyGet orderObj "id" with
    | .error e => .error e
    | .ok order_id =>
    match pyGet payload "status" with
    | .error e => .error e
    | .ok status =>
    match pyGet event_info "ts" with
    | .error e => .error e
    | .ok ts => .ok (some (Row.mk payment_id order_id q status ts))
  else .ok none

/-- One physical line of the input stream, abstracted by the outcome of the
two library calls the driver applies to it: blank stands for a line that is
empty after strip(), malformed for a non-blank line on which json.loads
raises a decode error, and record j for a non-blank line that decodes to
the value j. -/
inductive Line where
  | blank : Line
  | malformed : Line
  | record (j : Json) : Line

/-- Driver state threaded through the loop: the sticky archival-capability
flag has_mongo, the documents on which an archive write was attempted, and
the accumulated cleaned rows. -/
structure PipeState where
  hasMongo : Bool
  archived : List Json
  rows : List Row

/-- Step 1 of the source: when archival is still enabled, attempt the
insert and record the outcome; a rejected write (the sink is modelled as
the function giving each attempted write's outcome) clears the flag so no
later write is attempted.  When archival is disabled the state is
untouched. -/
def archiveAttempt (sink : Nat → Bool) (st : PipeState) (j : Json) : PipeState :=
  if st.hasMongo then
    { hasMongo := sink st.archived.length
      archived := st.archived ++ [j]
      rows := st.rows }
  else st

/-- The body of the per-line loop: skip blank lines, skip undecodable
lines, otherwise archive then run the record pipeline, appending the row
of an accepted record.  An uncaught error aborts the run. -/
def stepLine (sink : Nat → Bool) (st : PipeState) (l : Line) :
    Except PyErr PipeState :=
  match l with
  | .blank => .ok st
  | .malformed => .ok st
  | .record j =>
      let st1 := archiveAttempt sink st j
      match extractAndRow j with
      | .error e => .error e
      | .ok none => .ok st1
      | .ok (some r) =>
          .ok { hasMongo := st1.hasMongo
                archived := st1.archived
                rows := st1.rows ++ [r] }

/-- The whole per-line loop over the input stream. -/
def runLines (sink : Nat → Bool) (st : PipeState) : List Line → Except PyErr PipeState
  | [] => .ok st
  | l :: ls =>
      match stepLine sink st l with
      | .error e => .error e
      | .ok st' => runLines sink st' ls

/-- Whether an Except value is a success. -/
def isOkE {α : Type} : Except PyErr α → Bool
  | .ok _ => true
  | .error _ => false

/-- Decimal digit characters of the fraction n over d, produced by long
division with enough fuel for every value occurring here; rendering stops
at the first zero remainder, as Python's shortest float repr does on
values whose decimal expansion terminates (all values in this
development). -/
def fracDigitsLoop (fuel n d : Nat) : List Char :=
  match fuel with
  | 0 => []
  | Nat.succ f =>
      if n = 0 then []
      else Char.ofNat (48 + n * 10 / d) :: fracDigitsLoop f (n * 10 % d) d

/-- Python str() of a float value holding the given exact rational: sign,
integer part, a dot, and the fractional digits, with a single zero after
the dot when the value is integral (str of 10.0 is the text 10.0). -/
def renderFloat (q : ℚ) : String :=
  let sgn := if q.num < 0 then "-" else ""
  let n := q.num.natAbs
  let d := q.den
  let ds := fracDigitsLoop 60 (n % d) d
  sgn ++ toString (n / d) ++ "." ++ (if ds = [] then "0" else String.mk ds)

/-- Python csv rendering of a scalar cell value: None becomes the empty
field, strings pass through, booleans render as True or False, numbers by
their repr (an integer without fractional part, otherwise a decimal).
Non-scalar cells never occur in the rows considered here and render as the
empty field. -/
def pyStrField : Json → String
  | Json.null => ""
  | Json.bool b => if b then "True" else "False"
  | Json.int n => if n < 0 then "-" ++ toString n.natAbs else toString n.natAbs
  | Json.str s => s
  | Json.num q => if q.den = 1 then (if q.num < 0 then "-" ++ toString q.num.natAbs else toString q.num.natAbs) else renderFloat q
  | Json.arr _ => ""
  | Json.obj _ => ""

/-- Minimal csv field quoting as the csv module applies it: a field
containing the delimiter, the quote character or a line break is wrapped in
double quotes with embedded quotes doubled. -/
def csvQuoteField (s : String) : String :=
  if s.data.any (fun c => c == ',' || c == '"' || c == '\n' || c == '\r') then
    "\"" ++ String.join (s.data.map (fun c => if c == '"' then "\"\"" else String.mk [c])) ++ "\""
  else s

/-- One csv data line for a cleaned row, fields in the fixed column order
of the source. -/
def renderRow (r : Row) : String :=
  String.intercalate ","
    [csvQuoteField (pyStrField r.payment_id),
     csvQuoteField (pyStrField r.order_id),
     csvQuoteField (renderFloat r.amount_usd),
     csvQuoteField (pyStrField r.status),
     csvQuoteField (pyStrField r.ts)]

/-- The csv lines written for a non-empty result: the header then one line
per row. -/
def csvLines (rows : List Row) : List String :=
  "payment_id,order_id,amount_usd,status,ts" :: rows.map renderRow

/-- Step 6 of the source: a file with header and rows when at least one
transaction survived, no file otherwise. -/
def emitOutput (st : PipeState) : Option (List String) :=
  if st.rows.isEmpty then none else some (csvLines st.rows)

/-- The whole pipeline of clean_transactions on an existing input file:
the startup reachability probe outcome is the mongoUp argument, the
outcome of each attempted archive write is given by sink, and the result
is the emitted csv lines (none when no valid transaction was found), or
the uncaught error that aborted the run. -/
def clean_transactions (sink : Nat → Bool) (mongoUp : Bool) (ls : List Line) :
    Except PyErr (Option (List String)) :=
  (runLines sink (PipeState.mk mongoUp [] []) ls).map emitOutput

/-- Whether an optional member value is absent or a dictionary, the shape
under which attribute navigation with an empty-dictionary default cannot
raise. -/
def isObjOrAbsentO : Option Json → Bool
  | none => true
  | some (Json.obj _) => true
  | _ => false

/-- Whether an optional flags member is absent, null or a list, the shapes
under which the membership tests of the filter cannot raise. -/
def flagsOkO : Option Json → Bool
  | none => true
  | some Json.null => true
  | some (Json.arr _) => true
  | _ => false

/-- Whether an optional Amount member cannot make the normalizer raise:
every value except an integer at or beyond the float-conversion bound. -/
def amountOkO : Option Json → Bool
  | some (Json.int n) => !intFloatOverflow n
  | _ => true

/-- Shape of a parsed record that the driver can process without raising:
a top-level dictionary whose payload, entity and event members, when
present, are dictionaries, whose entity payment and order members, when
present, are dictionaries, whose payload flags member, when present, is
null or a list, and whose payload Amount member is not an integer beyond
the float-conversion bound. -/
def wellShaped : Json → Bool
  | Json.obj m =>
      isObjOrAbsentO (lookupKey m "payload") &&
      isObjOrAbsentO (lookupKey m "entity") &&
      isObjOrAbsentO (lookupKey m "event") &&
      (match (lookupKey m "payload").getD (Json.obj []) with
        | Json.obj pm =>
            flagsOkO (lookupKey pm "flags") && amountOkO (lookupKey pm "Amount")
        | _ => false) &&
      (match (lookupKey m "entity").getD (Json.obj []) with
        | Json.obj em =>
            isObjOrAbsentO (lookupKey em "payment") &&
            isObjOrAbsentO (lookupKey em "order")
        | _ => false)
  | _ => false

/-- Shape of a line the driver can process without raising. -/
def lineOk : Line → Bool
  | Line.blank => true
  | Line.malformed => true
  | Line.record j => wellShaped j

/-- Pure attribute navigation with a null default, the total counterpart
of pyGet on dictionary-shaped input. -/
def getAttr (j : Json) (k : String) : Json :=
  match j with
  | Json.obj m => (lookupKey m k).getD Json.null
  | _ => Json.null

/-- Pure attribute navigation with an empty-dictionary default, the total
counterpart of pyGetD on dictionary-shaped input. -/
def getAttrObj (j : Json) (k : String) : Json :=
  match j with
  | Json.obj m => (lookupKey m k).getD (Json.obj [])
  | _ => Json.obj []

/-- The raw amount value payload.Amount of a record. -/
def amountRawOf (j : Json) : Json :=
  getAttr (getAttrObj j "payload") "Amount"

/-- The payment identifier entity.payment.id of a record. -/
def paymentIdOf (j : Json) : Json :=
  getAttr (getAttrObj (getAttrObj j "entity") "payment") "id"

/-- The event type event.type of a record. -/
def eventTypeOf (j : Json) : Json :=
  getAttr (getAttrObj j "event") "type"

/-- The raw flags value payload.flags of a record. -/
def flagsRawOf (j : Json) : Json :=
  getAttr (getAttrObj j "payload") "flags"

/-- The tokens of a flag list; a value of any other shape carries no
tokens. -/
def flagTokens : Json → List Json
  | Json.arr l => l
  | _ => []

/-- The concrete scenario record of the spec, with the string amount. -/
def c7record : Json :=
  Json.obj
    [("event", Json.obj
        [("type", Json.str "payment_succeeded"),
         ("ts", Json.str "2024-01-01T00:00:00Z")]),
     ("entity", Json.obj
        [("payment", Json.obj [("id", Json.str "pay_1")]),
         ("order", Json.obj [("id", Json.str "ord_1")])]),
     ("payload", Json.obj
        [("Amount", Json.str "$10.00"),
         ("status", Json.str "SUCCESS"),
         ("flags", Json.null)])]

/-- The concrete scenario record with the integer-cents amount 1000
instead of the string amount. -/
def c7recordIntAmount : Json :=
  Json.obj
    [("event", Json.obj
        [("type", Json.str "payment_succeeded"),
         ("ts", Json.str "2024-01-01T00:00:00Z")]),
     ("entity", Json.obj
        [("payment", Json.obj [("id", Json.str "pay_1")]),
         ("order", Json.obj [("id", Json.str "ord_1")])]),
     ("payload", Json.obj
        [("Amount", Json.int 1000),
         ("status", Json.str "SUCCESS"),
         ("flags", Json.null)])]

/-- A record that is filtered in and carries a present, non-empty payment
identifier but whose Amount is an integer beyond the float-conversion
bound: processing it aborts with OverflowError instead of either
contributing a row or being dropped. -/
def c6overflowRecord : Json :=
  Json.obj
    [("entity", Json.obj [("payment", Json.obj [("id", Json.str "pay_1")])]),
     ("payload", Json.obj
        [("Amount", Json.int (Int.ofNat (floatOverflowBound + 2)))])]

/-- Certification that the overflow bound numeral is the first integer
magnitude whose float conversion overflows. -/
theorem floatOverflowBound_eq : floatOverflowBound = 2 ^ 1024 - 2 ^ 970 := by
  norm_num [floatOverflowBound]

/-- Any value pyFloatOfClean produces is built from natural numbers, hence
non-negative. -/
theorem pyFloatOfClean_nonneg (cs : List Char) (q : ℚ)
    (h : pyFloatOfClean cs = some q) : 0 ≤ q := by
  unfold pyFloatOfClean at h
  split at h
  · simp only [Option.some.injEq] at h
    subst h
    exact Rat.mkRat_nonneg (by positivity) _
  · exact absurd h (by simp)

/-- C1 counterexample: numeric normalization is not division by 100 for
every numeric input: at the smallest overflowing integer magnitude (equal
to 2 ^ 1024 - 2 ^ 970 by floatOverflowBound_eq) the division val / 100.0
raises an uncaught OverflowError instead of producing a value. -/
theorem c1_counterexample_overflow :
    normalize_amount (Json.int (Int.ofNat floatOverflowBound)) =
      Except.error PyErr.overflowError := rfl

/-- C1 (amended): every floating-point input normalizes to exactly the
input divided by 100 (cents to major units), and so does every integer
input whose magnitude is below the float-conversion bound, with the sign
preserved, as shown by the concrete value -500 normalizing to -5; an
integer at or beyond the bound raises OverflowError instead. -/
theorem c1_numeric_cents_division :
    (∀ q : ℚ, normalize_amount (Json.num q) = Except.ok (some (q / 100))) ∧
    (∀ n : ℤ, intFloatOverflow n = false →
      normalize_amount (Json.int n) = Except.ok (some ((n : ℚ) / 100))) ∧
    normalize_amount (Json.int (-500)) = Except.ok (some (-5)) := by
  refine ⟨fun q => rfl, ?_, ?_⟩
  · intro n h
    simp only [normalize_amount, h, Bool.false_eq_true, if_false,
      Rat.mkRat_eq_div]
    norm_num
  · have h : intFloatOverflow (-500) = false := by decide
    simp only [normalize_amount, h, Bool.false_eq_true, if_false,
      Option.some.injEq, Except.ok.injEq]
    decide

/-- C1 witness: the amended theorem applied at the in-range integer
-500. -/
theorem c1_witness :
    intFloatOverflow (-500) = false ∧
    normalize_amount (Json.int (-500)) =
      Except.ok (some (((-500 : ℤ) : ℚ) / 100)) :=
  ⟨by decide, c1_numeric_cents_division.2.1 (-500) (by decide)⟩

/-- C2: on every string input the normalizer agrees with the spec-side
description (strip every character that is not a digit or a dot, then parse,
unrepresentable when nothing remains or parsing fails), and on the concrete
examples: thousands separators are deleted, currency words are deleted, and
a string of only symbols is unrepresentable. -/
theorem c2_string_strip_and_parse :
    (∀ s, normalize_amount (Json.str s) = Except.ok (specNormalizeString s)) ∧
    normalize_amount (Json.str "1,000.00") = Except.ok (some 1000) ∧
    normalize_amount (Json.str "USD 10.00") = Except.ok (some 10) ∧
    normalize_amount (Json.str "$") = Except.ok none := by
  refine ⟨?_, by rfl, by rfl, by rfl⟩
  intro s
  by_cases h : s = ""
  · subst h; rfl
  · simp only [normalize_amount, specNormalizeString, stripAmount, h, if_false]

/-- C3 counterexample: the normalizer is not free of uncontrolled errors:
one past the float-conversion bound, val / 100.0 raises OverflowError,
which the except (ValueError, TypeError) clause does not catch, so it
propagates to the caller. -/
theorem c3_counterexample_overflow :
    normalize_amount (Json.int (Int.ofNat (floatOverflowBound + 1))) =
      Except.error PyErr.overflowError := rfl

/-- C3 (amended): apart from the single OverflowError escape on integers
at or beyond the float-conversion bound, the normalizer is total and the
unrepresentable cases are exactly as described: absent input, the empty
string, and inputs that are neither numeric nor strings (lists,
dictionaries) give the unrepresentable signal without error; every string
gives a result without error; floats and in-range integers always
normalize to a value. -/
theorem c3_total_and_unrepresentable_cases :
    normalize_amount Json.null = Except.ok none ∧
    normalize_amount (Json.str "") = Except.ok none ∧
    (∀ l, normalize_amount (Json.arr l) = Except.ok none) ∧
    (∀ m, normalize_amount (Json.obj m) = Except.ok none) ∧
    (∀ s, ∃ r, normalize_amount (Json.str s) = Except.ok r) ∧
    (∀ q : ℚ, normalize_amount (Json.num q) = Except.ok (some (q / 100))) ∧
    (∀ n : ℤ, intFloatOverflow n = false →
      ∃ v, normalize_amount (Json.int n) = Except.ok (some v)) ∧
    (∀ n : ℤ, intFloatOverflow n = true →
      normalize_amount (Json.int n) = Except.error PyErr.overflowError) := by
  refine ⟨rfl, by rfl, fun _ => rfl, fun _ => rfl, fun s => ⟨_, rfl⟩,
    fun q => rfl, ?_, ?_⟩
  · intro n h
    exact ⟨mkRat n 100, by simp [normalize_amount, h]⟩
  · intro n h
    simp [normalize_amount, h]

/-- C3 witness: the amended theorem applied at the in-range integer 1000
and at an integer ten times the bound. -/
theorem c3_witness :
    (∃ v, normalize_amount (Json.int 1000) = Except.ok (some v)) ∧
    normalize_amount (Json.int (Int.ofNat (floatOverflowBound * 10))) =
      Except.error PyErr.overflowError :=
  ⟨c3_total_and_unrepresentable_cases.2.2.2.2.2.2.1 1000 (by decide),
   c3_total_and_unrepresentable_cases.2.2.2.2.2.2.2
     (Int.ofNat (floatOverflowBound * 10)) (by rfl)⟩

/-- C10: a successfully normalized string amount is never negative, because
the minus sign is deleted by the stripping step; concretely the string
"-10.00" normalizes to positive 10, unlike numeric input whose sign
survives. -/
theorem c10_string_amounts_nonneg :
    (∀ s q, normalize_amount (Json.str s) = Except.ok (some q) → 0 ≤ q) ∧
    normalize_amount (Json.str "-10.00") = Except.ok (some 10) := by
  refine ⟨?_, by rfl⟩
  intro s q h
  simp only [normalize_amount, Except.ok.injEq] at h
  split at h
  · exact absurd h (by simp)
  · split at h
    · exact absurd h (by simp)
    · exact pyFloatOfClean_nonneg _ _ h

/-- C10 witness: the non-negativity theorem applied at the concrete stripped
negative string. -/
theorem c10_witness :
    normalize_amount (Json.str "-10.00") = Except.ok (some 10) ∧ (0 : ℚ) ≤ 10 :=
  ⟨c10_string_amounts_nonneg.2,
   c10_string_amounts_nonneg.1 "-10.00" 10 c10_string_amounts_nonneg.2⟩

theorem isStr_eq_true_iff (j : Json) (s : String) :
    j.isStr s = true ↔ j = Json.str s := by
  cases j <;> simp [Json.isStr]

theorem any_isStr_iff (l : List Json) (tok : String) :
    (l.any fun e => e.isStr tok) = true ↔ Json.str tok ∈ l := by
  simp [List.any_eq_true, isStr_eq_true_iff]

theorem normFlags_arr (l : List Json) : normFlags (Json.arr l) = Json.arr l := by
  cases l with
  | nil => rfl
  | cons a as => rfl

theorem filterExcluded_arr (t : Json) (l : List Json) :
    filterExcluded t (Json.arr l) =
      Except.ok ((l.any fun e => e.isStr "test") ||
        (t.isStr "heartbeat" || (l.any fun e => e.isStr "noise"))) := by
  simp only [filterExcluded, pyContains]
  cases h1 : l.any fun e => e.isStr "test"
  · cases h2 : t.isStr "heartbeat" <;> simp [h1, h2, filterExcluded, pyContains]
  · simp [h1]

theorem getD_obj_of_isObjOrAbsentO (o : Option Json) (h : isObjOrAbsentO o = true) :
    ∃ fields, o.getD (Json.obj []) = Json.obj fields := by
  cases o with
  | none => exact ⟨[], rfl⟩
  | some j =>
      cases j with
      | obj fs => exact ⟨fs, rfl⟩
      | null => simp [isObjOrAbsentO] at h
      | bool b => simp [isObjOrAbsentO] at h
      | int n => simp [isObjOrAbsentO] at h
      | num q => simp [isObjOrAbsentO] at h
      | str s => simp [isObjOrAbsentO] at h
      | arr l => simp [isObjOrAbsentO] at h

theorem normFlags_of_flagsOkO (o : Option Json) (h : flagsOkO o = true) :
    ∃ fl, normFlags (o.getD Json.null) = Json.arr fl := by
  cases o with
  | none => exact ⟨[], rfl⟩
  | some j =>
      cases j with
      | null => exact ⟨[], rfl⟩
      | arr l => exact ⟨l, normFlags_arr l⟩
      | bool b => simp [flagsOkO] at h
      | int n => simp [flagsOkO] at h
      | num q => simp [flagsOkO] at h
      | str s => simp [flagsOkO] at h
      | obj m => simp [flagsOkO] at h

theorem normalize_ok_of_amountOkO (o : Option Json) (h : amountOkO o = true) :
    ∃ ao, normalize_amount (o.getD Json.null) = Except.ok ao := by
  cases o with
  | none => exact ⟨none, rfl⟩
  | some j =>
      cases j with
      | null => exact ⟨none, rfl⟩
      | bool b => exact ⟨_, rfl⟩
      | int n =>
          simp only [amountOkO, Bool.not_eq_true'] at h
          exact ⟨some (mkRat n 100), by simp [normalize_amount, h]⟩
      | num q => exact ⟨_, rfl⟩
      | str s => exact ⟨_, rfl⟩
      | arr l => exact ⟨none, rfl⟩
      | obj fs => exact ⟨none, rfl⟩

theorem wellShaped_elim (m : List (String × Json)) (h : wellShaped (Json.obj m) = true) :
    ∃ pm em vm fl ao,
      (lookupKey m "payload").getD (Json.obj []) = Json.obj pm ∧
      (lookupKey m "entity").getD (Json.obj []) = Json.obj em ∧
      (lookupKey m "event").getD (Json.obj []) = Json.obj vm ∧
      normFlags ((lookupKey pm "flags").getD Json.null) = Json.arr fl ∧
      normalize_amount ((lookupKey pm "Amount").getD Json.null) = Except.ok ao ∧
      isObjOrAbsentO (lookupKey em "payment") = true ∧
      isObjOrAbsentO (lookupKey em "order") = true := by
  simp only [wellShaped, Bool.and_eq_true] at h
  obtain ⟨⟨⟨⟨h1, h2⟩, h3⟩, h4⟩, h5⟩ := h
  obtain ⟨pm, hpm⟩ := getD_obj_of_isObjOrAbsentO _ h1
  obtain ⟨em, hem⟩ := getD_obj_of_isObjOrAbsentO _ h2
  obtain ⟨vm, hvm⟩ := getD_obj_of_isObjOrAbsentO _ h3
  rw [hpm] at h4
  rw [hem] at h5
  simp only [Bool.and_eq_true] at h4 h5
  obtain ⟨fl, hfl⟩ := normFlags_of_flagsOkO _ h4.1
  obtain ⟨ao, hao⟩ := normalize_ok_of_amountOkO _ h4.2
  exact ⟨pm, em, vm, fl, ao, hpm, hem, hvm, hfl, hao, h5.1, h5.2⟩

theorem extractAndRow_eval (m pm em vm qm om : List (String × Json))
    (fl : List Json) (ao : Option ℚ)
    (hpm : (lookupKey m "payload").getD (Json.obj []) = Json.obj pm)
    (hem : (lookupKey m "entity").getD (Json.obj []) = Json.obj em)
    (hvm : (lookupKey m "event").getD (Json.obj []) = Json.obj vm)
    (hfl : normFlags ((lookupKey pm "flags").getD Json.null) = Json.arr fl)
    (hao : normalize_amount ((lookupKey pm "Amount").getD Json.null) =
      Except.ok ao)
    (hqm : (lookupKey em "payment").getD (Json.obj []) = Json.obj qm)
    (hom : (lookupKey em "order").getD (Json.obj []) = Json.obj om) :
    extractAndRow (Json.obj m) = Except.ok
      (if (fl.any fun e => e.isStr "test") ||
          (((lookupKey vm "type").getD Json.null).isStr "heartbeat" ||
            (fl.any fun e => e.isStr "noise")) then none
       else
         match ao with
         | none => none
         | some q =>
             if ((lookupKey qm "id").getD Json.null).truthy then
               some (Row.mk ((lookupKey qm "id").getD Json.null)
                 ((lookupKey om "id").getD Json.null) q
                 ((lookupKey pm "status").getD Json.null)
                 ((lookupKey vm "ts").getD Json.null))
             else none) := by
  simp only [extractAndRow, pyGetD, pyGet, hpm, hem, hvm, hfl, hao, hqm,
    filterExcluded_arr]
  cases hb : (fl.any fun e => e.isStr "test") ||
      (((lookupKey vm "type").getD Json.null).isStr "heartbeat" ||
        (fl.any fun e => e.isStr "noise")) with
  | true => simp [hb]
  | false =>
      simp only [hb, if_false]
      cases hn : ao with
      | none => simp [hn]
      | some q =>
          simp only [hn]
          cases ht : ((lookupKey qm "id").getD Json.null).truthy with
          | true => simp [ht, hom]
          | false => simp [ht]

theorem extractAndRow_ok_of_wellShaped (j : Json) (h : wellShaped j = true) :
    ∃ o, extractAndRow j = Except.ok o := by
  cases j with
  | obj m =>
      obtain ⟨pm, em, vm, fl, ao, hpm, hem, hvm, hfl, hao, hpay, hord⟩ :=
        wellShaped_elim m h
      obtain ⟨qm, hqm⟩ := getD_obj_of_isObjOrAbsentO _ hpay
      obtain ⟨om, hom⟩ := getD_obj_of_isObjOrAbsentO _ hord
      exact ⟨_, extractAndRow_eval m pm em vm qm om fl ao hpm hem hvm hfl hao
        hqm hom⟩
  | null => simp [wellShaped] at h
  | bool b => simp [wellShaped] at h
  | int n => simp [wellShaped] at h
  | num q => simp [wellShaped] at h
  | str s => simp [wellShaped] at h
  | arr l => simp [wellShaped] at h

theorem stepLine_ok (sink : Nat → Bool) (st : PipeState) (l : Line)
    (h : lineOk l = true) : ∃ st1, stepLine sink st l = Except.ok st1 := by
  cases l with
  | blank => exact ⟨st, rfl⟩
  | malformed => exact ⟨st, rfl⟩
  | record j =>
      obtain ⟨o, ho⟩ := extractAndRow_ok_of_wellShaped j h
      cases o with
      | none => exact ⟨archiveAttempt sink st j, by simp [stepLine, ho]⟩
      | some r =>
          refine ⟨PipeState.mk (archiveAttempt sink st j).hasMongo
            (archiveAttempt sink st j).archived
            ((archiveAttempt sink st j).rows ++ [r]), ?_⟩
          simp [stepLine, ho]

theorem runLines_ok_of_lineOk (sink : Nat → Bool) :
    ∀ (ls : List Line) (st : PipeState),
    (∀ l ∈ ls, lineOk l = true) → isOkE (runLines sink st ls) = true
  | [], _, _ => rfl
  | l :: ls, st, h => by
      obtain ⟨st1, hst1⟩ := stepLine_ok sink st l (h l (List.mem_cons_self l ls))
      simp only [runLines, hst1]
      exact runLines_ok_of_lineOk sink ls st1 (fun x hx => h x (List.mem_cons_of_mem l hx))

theorem archiveAttempt_rows (sink : Nat → Bool) (st : PipeState) (j : Json) :
    (archiveAttempt sink st j).rows = st.rows := by
  unfold archiveAttempt
  split <;> rfl

theorem archiveAttempt_disabled (sink : Nat → Bool) (st : PipeState) (j : Json)
    (h : st.hasMongo = false) : archiveAttempt sink st j = st := by
  unfold archiveAttempt
  rw [h]
  rfl

theorem extractAndRow_some_truthy (j : Json) (r : Row)
    (h : extractAndRow j = Except.ok (some r)) : r.payment_id.truthy = true := by
  unfold extractAndRow at h
  repeat' split at h
  all_goals simp at h
  all_goals (subst h; assumption)

theorem stepLine_rows_truthy (sink : Nat → Bool) (st : PipeState) (l : Line)
    (st1 : PipeState) (h : stepLine sink st l = Except.ok st1)
    (hin : ∀ r ∈ st.rows, r.payment_id.truthy = true) :
    ∀ r ∈ st1.rows, r.payment_id.truthy = true := by
  cases l with
  | blank =>
      simp only [stepLine] at h
      cases h
      exact hin
  | malformed =>
      simp only [stepLine] at h
      cases h
      exact hin
  | record j =>
      simp only [stepLine] at h
      cases he : extractAndRow j with
      | error e => rw [he] at h; cases h
      | ok o =>
          rw [he] at h
          cases o with
          | none =>
              cases h
              intro r hr
              rw [archiveAttempt_rows] at hr
              exact hin r hr
          | some r0 =>
              cases h
              intro r hr
              simp only [archiveAttempt_rows, List.mem_append, List.mem_singleton] at hr
              rcases hr with hr | rfl
              · exact hin r hr
              · exact extractAndRow_some_truthy j r he

theorem runLines_rows_truthy (sink : Nat → Bool) :
    ∀ (ls : List Line) (st st' : PipeState),
    runLines sink st ls = Except.ok st' →
    (∀ r ∈ st.rows, r.payment_id.truthy = true) →
    ∀ r ∈ st'.rows, r.payment_id.truthy = true
  | [], st, st', h, hin => by
      simp only [runLines] at h
      cases h
      exact hin
  | l :: ls, st, st', h, hin => by
      simp only [runLines] at h
      cases hs : stepLine sink st l with
      | error e => rw [hs] at h; cases h
      | ok st1 =>
          rw [hs] at h
          exact runLines_rows_truthy sink ls st1 st' h
            (stepLine_rows_truthy sink st l st1 hs hin)

theorem stepLine_sticky (sink : Nat → Bool) (st : PipeState) (l : Line)
    (st1 : PipeState) (h : stepLine sink st l = Except.ok st1)
    (hm : st.hasMongo = false) :
    st1.hasMongo = false ∧ st1.archived = st.archived := by
  cases l with
  | blank => simp only [stepLine] at h; cases h; exact ⟨hm, rfl⟩
  | malformed => simp only [stepLine] at h; cases h; exact ⟨hm, rfl⟩
  | record j =>
      simp only [stepLine, archiveAttempt_disabled sink st j hm] at h
      cases he : extractAndRow j with
      | error e => rw [he] at h; cases h
      | ok o =>
          rw [he] at h
          cases o with
          | none => cases h; exact ⟨hm, rfl⟩
          | some r => cases h; exact ⟨hm, rfl⟩

theorem runLines_sticky (sink : Nat → Bool) :
    ∀ (ls : List Line) (st st' : PipeState),
    runLines sink st ls = Except.ok st' → st.hasMongo = false →
    st'.hasMongo = false ∧ st'.archived = st.archived
  | [], st, st', h, hm => by
      simp only [runLines] at h
      cases h
      exact ⟨hm, rfl⟩
  | l :: ls, st, st', h, hm => by
      simp only [runLines] at h
      cases hs : stepLine sink st l with
      | error e => rw [hs] at h; cases h
      | ok st1 =>
          rw [hs] at h
          obtain ⟨hm1, ha1⟩ := stepLine_sticky sink st l st1 hs hm
          obtain ⟨hm2, ha2⟩ := runLines_sticky sink ls st1 st' h hm1
          exact ⟨hm2, ha2.trans ha1⟩

theorem runLines_rows_indep (sink1 sink2 : Nat → Bool) :
    ∀ (ls : List Line) (st1 st2 : PipeState), st1.rows = st2.rows →
    (runLines sink1 st1 ls).map PipeState.rows =
      (runLines sink2 st2 ls).map PipeState.rows
  | [], st1, st2, h => by simp only [runLines, Except.map, h]
  | l :: ls, st1, st2, h => by
      cases l with
      | blank => exact runLines_rows_indep sink1 sink2 ls st1 st2 h
      | malformed => exact runLines_rows_indep sink1 sink2 ls st1 st2 h
      | record j =>
          simp only [runLines, stepLine]
          cases he : extractAndRow j with
          | error e => simp [Except.map]
          | ok o =>
              cases o with
              | none =>
                  exact runLines_rows_indep sink1 sink2 ls _ _
                    (by rw [archiveAttempt_rows, archiveAttempt_rows, h])
              | some r =>
                  exact runLines_rows_indep sink1 sink2 ls _ _
                    (by simp only [archiveAttempt_rows, h])

theorem emitOutput_rows_congr (st1 st2 : PipeState) (h : st1.rows = st2.rows) :
    emitOutput st1 = emitOutput st2 := by
  unfold emitOutput
  rw [h]

/-- C4 counterexample: the filter is not a failure-free predicate on
arbitrary records: a truthy non-list flags value such as the integer 5
survives the or-with-empty-list defaulting and makes the membership test
raise TypeError, which nothing catches (and a string-valued flags would be
matched by substring rather than by exact token). -/
theorem c4_counterexample_flags_typeerror :
    filterExcluded Json.null (normFlags (Json.int 5)) =
      Except.error PyErr.typeError := rfl

/-- C4 (amended): a record whose flags value is absent, null or a list is
excluded by the event filter exactly when the flag list contains the
literal string token test, or the literal string token noise, or the event
type equals exactly the string heartbeat; matching is exact and
case-sensitive, an absent or null flags value acts as the empty list, and
on this domain the filter never fails.  A truthy flags value of any other
shape is outside the flag-list contract (a number raises TypeError, a
string is matched by substring). -/
theorem c4_filter_iff (t v : Json)
    (h : v = Json.null ∨ ∃ l, v = Json.arr l) :
    isOkE (filterExcluded t (normFlags v)) = true ∧
    (filterExcluded t (normFlags v) = Except.ok true ↔
      (Json.str "test" ∈ flagTokens v ∨ Json.str "noise" ∈ flagTokens v ∨
        t = Json.str "heartbeat")) := by
  rcases h with rfl | ⟨l, rfl⟩
  · rw [show normFlags Json.null = Json.arr [] from rfl, filterExcluded_arr]
    constructor
    · rfl
    · simp [flagTokens, isStr_eq_true_iff]
  · rw [normFlags_arr, filterExcluded_arr]
    constructor
    · rfl
    · simp only [flagTokens, Except.ok.injEq, Bool.or_eq_true, any_isStr_iff,
        isStr_eq_true_iff]
      tauto

/-- C4 witness: the filter theorem applied to a null flags value and the
heartbeat event type. -/
theorem c4_witness :
    isOkE (filterExcluded (Json.str "heartbeat") (normFlags Json.null)) = true ∧
    (filterExcluded (Json.str "heartbeat") (normFlags Json.null) = Except.ok true ↔
      (Json.str "test" ∈ flagTokens Json.null ∨
        Json.str "noise" ∈ flagTokens Json.null ∨
        Json.str "heartbeat" = Json.str "heartbeat")) :=
  c4_filter_iff (Json.str "heartbeat") Json.null (Or.inl rfl)

/-- C5 counterexample: the claim that no line content can abort processing
is false: the line consisting of the valid JSON text 5 decodes to a
non-dictionary, on which the attribute navigation of the driver raises an
AttributeError that nothing catches, aborting the run. -/
theorem c5_counterexample_nonobject_line :
    stepLine (fun _ => true) (PipeState.mk false [] [])
      (Line.record (Json.num 5)) = Except.error PyErr.attributeError := rfl

/-- C5 (amended): processing never raises and never aborts the remaining
lines provided every decoded line is well shaped, that is, a JSON object
whose payload, entity and event members (when present) are objects, whose
entity payment and order members (when present) are objects, whose payload
flags member (when present) is null or a list, and whose payload Amount
member is not an integer at or beyond the float-conversion bound (such an
amount aborts the run with an uncaught OverflowError); blank lines and
lines that fail to decode are always skipped silently, and a record
missing entity.payment.id (or entity entirely) is dropped by substituting
empty mappings, never by raising. -/
theorem c5_well_shaped_lines_never_abort (sink : Nat → Bool) (st : PipeState)
    (ls : List Line) (h : ∀ l ∈ ls, lineOk l = true) :
    isOkE (runLines sink st ls) = true :=
  runLines_ok_of_lineOk sink ls st h

/-- C5 witness: the amended theorem applied to a concrete stream of a
blank line, an undecodable line and a well-shaped record. -/
theorem c5_witness :
    (∀ l ∈ [Line.blank, Line.malformed, Line.record c7record], lineOk l = true) ∧
    isOkE (runLines (fun _ => true) (PipeState.mk true [] [])
      [Line.blank, Line.malformed, Line.record c7record]) = true :=
  ⟨by decide, c5_well_shaped_lines_never_abort (fun _ => true)
    (PipeState.mk true [] []) [Line.blank, Line.malformed, Line.record c7record]
    (by decide)⟩

/-- C6 counterexample: without an amount restriction the claimed
contribute-or-drop dichotomy is false: c6overflowRecord passes the filter
and carries the present, non-empty payment identifier pay_1, yet the
source neither contributes a row for it nor drops it: normalization raises
an uncaught OverflowError and the run aborts. -/
theorem c6_counterexample_overflow_aborts :
    filterExcluded (eventTypeOf c6overflowRecord)
      (normFlags (flagsRawOf c6overflowRecord)) = Except.ok false ∧
    paymentIdOf c6overflowRecord = Json.str "pay_1" ∧
    extractAndRow c6overflowRecord = Except.error PyErr.overflowError :=
  ⟨rfl, rfl, rfl⟩

/-- C6 (amended): a well-shaped (in particular, amount not an integer
beyond the float-conversion bound), filtered-in record contributes a
cleaned row if and only if its normalized amount is representable and its
extracted payment identifier (null or a string by the data model) is
non-null and non-empty; order identifier, status and timestamp do not
appear in the condition, and every row in the output of a run has a
truthy, hence non-null, payment identifier.  The amount of every row is a
rational produced by the normalizer by construction of the row type. -/
theorem c6_validation_gate :
    (∀ (j : Json), wellShaped j = true →
      filterExcluded (eventTypeOf j) (normFlags (flagsRawOf j)) = Except.ok false →
      (paymentIdOf j = Json.null ∨ ∃ s, paymentIdOf j = Json.str s) →
      ((∃ r, extractAndRow j = Except.ok (some r)) ↔
        ((∃ q, normalize_amount (amountRawOf j) = Except.ok (some q)) ∧
          paymentIdOf j ≠ Json.null ∧ paymentIdOf j ≠ Json.str ""))) ∧
    (∀ (sink : Nat → Bool) (a : Bool) (ls : List Line) (st' : PipeState),
      runLines sink (PipeState.mk a [] []) ls = Except.ok st' →
      ∀ r ∈ st'.rows, r.payment_id.truthy = true ∧ r.payment_id ≠ Json.null) := by
  constructor
  · intro j hw hf hpid
    cases j with
    | obj m =>
        obtain ⟨pm, em, vm, fl, ao, hpm, hem, hvm, hfl, hao, hpay, hord⟩ :=
          wellShaped_elim m hw
        obtain ⟨qm, hqm⟩ := getD_obj_of_isObjOrAbsentO _ hpay
        obtain ⟨om, hom⟩ := getD_obj_of_isObjOrAbsentO _ hord
        have heval := extractAndRow_eval m pm em vm qm om fl ao hpm hem hvm
          hfl hao hqm hom
        have het : eventTypeOf (Json.obj m) = (lookupKey vm "type").getD Json.null := by
          simp [eventTypeOf, getAttrObj, getAttr, hvm]
        have hfr : flagsRawOf (Json.obj m) = (lookupKey pm "flags").getD Json.null := by
          simp [flagsRawOf, getAttrObj, getAttr, hpm]
        have ham : amountRawOf (Json.obj m) = (lookupKey pm "Amount").getD Json.null := by
          simp [amountRawOf, getAttrObj, getAttr, hpm]
        have hpi : paymentIdOf (Json.obj m) = (lookupKey qm "id").getD Json.null := by
          simp [paymentIdOf, getAttrObj, getAttr, hem, hqm]
        rw [het, hfr, hfl, filterExcluded_arr] at hf
        simp only [Except.ok.injEq] at hf
        rw [hf] at heval
        simp only [Bool.false_eq_true, if_false] at heval
        rw [ham, hpi, hao]
        rw [hpi] at hpid
        cases hn : ao with
        | none =>
            rw [hn] at heval
            simp [heval]
        | some q =>
            rw [hn] at heval
            rcases hpid with hnull | ⟨s, hstr⟩
            · rw [hnull] at heval ⊢
              simp [Json.truthy] at heval
              simp [heval]
            · rw [hstr] at heval ⊢
              by_cases hs : s = ""
              · subst hs
                simp [Json.truthy] at heval
                simp [heval]
              · have htr : (Json.str s).truthy = true := by
                  simp [Json.truthy, hs]
                simp only [htr, if_true] at heval
                simp [heval, hs]
    | null => simp [wellShaped] at hw
    | bool b => simp [wellShaped] at hw
    | int n => simp [wellShaped] at hw
    | num q => simp [wellShaped] at hw
    | str s => simp [wellShaped] at hw
    | arr l => simp [wellShaped] at hw
  · intro sink a ls st' h r hr
    have ht := runLines_rows_truthy sink ls (PipeState.mk a [] []) st' h
      (by intro x hx; cases hx) r hr
    refine ⟨ht, ?_⟩
    intro hc
    rw [hc] at ht
    simp [Json.truthy] at ht

/-- C6 witness: the validation-gate theorem applied to the concrete
scenario record. -/
theorem c6_witness :
    (∃ r, extractAndRow c7record = Except.ok (some r)) ↔
      ((∃ q, normalize_amount (amountRawOf c7record) = Except.ok (some q)) ∧
        paymentIdOf c7record ≠ Json.null ∧
        paymentIdOf c7record ≠ Json.str "") :=
  c6_validation_gate.1 c7record (by decide) (by rfl) (Or.inr ⟨"pay_1", by rfl⟩)

/-- C7: on the single concrete scenario line the pipeline emits exactly
the header payment_id,order_id,amount_usd,status,ts followed by the single
row pay_1,ord_1,10.0,SUCCESS,2024-01-01T00:00:00Z in that fixed column
order, and with the integer-cents amount 1000 instead of the string amount
the emitted lines are identical. -/
theorem c7_concrete_scenario :
    clean_transactions (fun _ => true) false [Line.record c7record] =
      Except.ok (some ["payment_id,order_id,amount_usd,status,ts",
        "pay_1,ord_1,10.0,SUCCESS,2024-01-01T00:00:00Z"]) ∧
    clean_transactions (fun _ => true) false [Line.record c7recordIntAmount] =
      Except.ok (some ["payment_id,order_id,amount_usd,status,ts",
        "pay_1,ord_1,10.0,SUCCESS,2024-01-01T00:00:00Z"]) :=
  ⟨by rfl, by rfl⟩

/-- C8: archival is a sticky capability with no reset: once the flag is
down (startup failure or a rejected write, which clears it) no further
archive write is ever attempted for the remainder of the run, and the
archive sink outcomes have no effect on the rows produced. -/
theorem c8_archival_sticky_and_isolated :
    (∀ (sink : Nat → Bool) (st : PipeState) (j : Json),
        st.hasMongo = false → archiveAttempt sink st j = st) ∧
    (∀ (sink : Nat → Bool) (st : PipeState) (j : Json),
        st.hasMongo = true → sink st.archived.length = false →
        (archiveAttempt sink st j).hasMongo = false) ∧
    (∀ (sink : Nat → Bool) (ls : List Line) (st st' : PipeState),
        runLines sink st ls = Except.ok st' → st.hasMongo = false →
        st'.hasMongo = false ∧ st'.archived = st.archived) ∧
    (∀ (sink1 sink2 : Nat → Bool) (a1 a2 : Bool) (ls : List Line),
        (runLines sink1 (PipeState.mk a1 [] []) ls).map PipeState.rows =
          (runLines sink2 (PipeState.mk a2 [] []) ls).map PipeState.rows) := by
  refine ⟨archiveAttempt_disabled, ?_,
    fun sink ls st st' h hm => runLines_sticky sink ls st st' h hm,
    fun s1 s2 a1 a2 ls => runLines_rows_indep s1 s2 ls _ _ rfl⟩
  intro sink st j hm hw
  simp [archiveAttempt, hm, hw]

/-- C8 witness: the archival theorem applied at concrete states, sinks
and a concrete completed run. -/
theorem c8_witness :
    archiveAttempt (fun _ => true) (PipeState.mk false [] []) Json.null =
      PipeState.mk false [] [] ∧
    (archiveAttempt (fun _ => false) (PipeState.mk true [] []) Json.null).hasMongo
      = false ∧
    ((PipeState.mk false [Json.null] []).hasMongo = false ∧
      (PipeState.mk false [Json.null] []).archived =
        (PipeState.mk false [Json.null] []).archived) :=
  ⟨c8_archival_sticky_and_isolated.1 (fun _ => true) (PipeState.mk false [] [])
      Json.null rfl,
   c8_archival_sticky_and_isolated.2.1 (fun _ => false) (PipeState.mk true [] [])
      Json.null rfl rfl,
   c8_archival_sticky_and_isolated.2.2.1 (fun _ => true) [Line.blank]
      (PipeState.mk false [Json.null] []) (PipeState.mk false [Json.null] [])
      rfl rfl⟩

/-- C9: the transformation from input lines to emitted output is
deterministic: the result of the pipeline, including the emitted csv
lines, is a pure function of the input lines, identical across runs and
independent of the archive sink behaviour and of the startup reachability
outcome. -/
theorem c9_output_sink_independent (sink1 sink2 : Nat → Bool) (a1 a2 : Bool)
    (ls : List Line) :
    clean_transactions sink1 a1 ls = clean_transactions sink2 a2 ls := by
  unfold clean_transactions
  have h := runLines_rows_indep sink1 sink2 ls (PipeState.mk a1 [] [])
    (PipeState.mk a2 [] []) rfl
  cases h1 : runLines sink1 (PipeState.mk a1 [] []) ls with
  | error e =>
      cases h2 : runLines sink2 (PipeState.mk a2 [] []) ls with
      | error e2 =>
          rw [h1, h2] at h
          simp only [Except.map] at h ⊢
          simp only [Except.error.injEq] at h
          rw [h]
      | ok st2 =>
          rw [h1, h2] at h
          simp [Except.map] at h
  | ok st1 =>
      cases h2 : runLines sink2 (PipeState.mk a2 [] []) ls with
      | error e2 =>
          rw [h1, h2] at h
          simp [Except.map] at h
      | ok st2 =>
          rw [h1, h2] at h
          simp only [Except.map] at h ⊢
          simp only [Except.ok.injEq] at h
          rw [emitOutput_rows_congr st1 st2 h]
